import Mathlib

/-!
Shallow embedding of `git_stats` (src/main.rs): a CLI tool that walks a git
commit history, classifies each commit against a target email, parses
commit-message trailers, and accumulates counters for a report.

Strings are modelled as `List Char` (`Str`), because the relevant Rust
string operations (`to_lowercase`, `trim`, `lines`, `starts_with`,
`contains`, `==`) become structurally recursive, kernel-evaluable
functions on character lists.  ASCII case folding models Rust's
`to_lowercase` (all strings this program compares are ASCII trailer
keywords and email addresses).  Counters are Rust `i32` values that start
at 0 and are only ever incremented; they are modelled as `Nat`.
-/

namespace GitStats

/-- A string, modelled as its list of characters. -/
abbrev Str := List Char

namespace Str

/-- Model of Rust `str::to_lowercase` (ASCII case folding). -/
def toLower (s : Str) : Str := s.map Char.toLower

/-- Model of Rust `str::trim`: drop whitespace from both ends. -/
def trim (s : Str) : Str :=
  ((s.dropWhile Char.isWhitespace).reverse.dropWhile Char.isWhitespace).reverse

/-- Model of Rust `str::starts_with(pat)`. -/
def startsWith (s pat : Str) : Bool := pat.isPrefixOf s

/-- Model of Rust `str::contains(pat)`: `pat` occurs as a contiguous
substring of `s`.  (Byte-level containment of valid UTF-8 coincides with
character-level containment, since UTF-8 is self-synchronizing.) -/
def containsSub : Str → Str → Bool
  | s@(_ :: rest), pat => pat.isPrefixOf s || containsSub rest pat
  | [], pat => pat.isEmpty

/-- Split on `'\n'`, keeping every field (including empty ones). -/
def splitNl : Str → List Str
  | [] => [[]]
  | c :: rest =>
    if c = '\n' then [] :: splitNl rest
    else
      match splitNl rest with
      | [] => [[c]]
      | l :: ls => (c :: l) :: ls

/-- Model of Rust `str::lines`: split on `'\n'`, drop the final empty
segment produced by a trailing newline (or by the empty string), and strip
one trailing `'\r'` from each line. -/
def lines (s : Str) : List Str :=
  let parts := splitNl s
  let parts :=
    match parts.reverse with
    | [] :: rest => rest.reverse
    | _ => parts
  parts.map fun l => if l.getLast? = some '\r' then l.dropLast else l

end Str

/-- One commit as seen by the main loop: the commit time (the `chrono`
`DateTime` obtained from the commit's epoch seconds, compared by `<`), the
author email (`None` when absent), and the message (`None` when
unreadable). -/
structure CommitRecord where
  time : Int
  author_email : Option Str
  message : Option Str
deriving DecidableEq

/-- The per-commit trailer flags (struct `TrailerState` in src/main.rs,
`#[derive(Default)]` = all `false`). -/
structure TrailerState where
  signed_off : Bool
  reviewed : Bool
  acked : Bool
  tested : Bool
  reported : Bool
deriving DecidableEq

/-- `TrailerState::default()`: all flags false. -/
def TrailerState.default : TrailerState :=
  ⟨false, false, false, false, false⟩

/-- `TrailerState::any_active`: some flag has been latched. -/
def TrailerState.any_active (s : TrailerState) : Bool :=
  s.signed_off || s.reviewed || s.acked || s.tested || s.reported

/-- The body of the `for line in msg.lines()` loop of `analyze_trailers`:
trim and lowercase the line; if it contains `target`, test it against the
five trailer keywords in order and latch the first matching flag. -/
def trailerLineStep (target : Str) (state : TrailerState) (line : Str) :
    TrailerState :=
  let lower := Str.toLower (Str.trim line)
  if Str.containsSub lower target then
    if Str.startsWith lower "signed-off-by:".toList then
      { state with signed_off := true }
    else if Str.startsWith lower "reviewed-by:".toList then
      { state with reviewed := true }
    else if Str.startsWith lower "acked-by:".toList then
      { state with acked := true }
    else if Str.startsWith lower "tested-by:".toList then
      { state with tested := true }
    else if Str.startsWith lower "reported-by:".toList then
      { state with reported := true }
    else state
  else state

/-- The `TrailerState` accumulated over all lines of a message by
`analyze_trailers`. -/
def analyzeState (msg : Str) (target : Str) : TrailerState :=
  (Str.lines msg).foldl (trailerLineStep target) TrailerState.default

/-- `analyze_trailers(msg, target)` from src/main.rs: fold the line
classifier over the message's lines, then return `some state` when any
flag is active, else `none`. -/
def analyze_trailers (msg : Str) (target : Str) : Option TrailerState :=
  let state := analyzeState msg target
  if state.any_active then some state else none

/-- The author-match test inlined in the main loop (src/main.rs lines
107-111): substring containment when `--partial` is set, string equality
otherwise.  Both compare the raw `args.email`, not a lowered copy. -/
def isMatch (substringMode : Bool) (author_email targetEmail : Str) : Bool :=
  if substringMode then Str.containsSub author_email targetEmail
  else author_email == targetEmail

/-- The run's accumulator: the mutable counters of `main` (all `i32`,
initialized to 0, only incremented; modelled as `Nat`). -/
structure RunTotals where
  total_scanned : Nat
  commits_authored : Nat
  commits_touched : Nat
  commits_ignored : Nat
  signed_off_count : Nat
  reviewed_count : Nat
  acked_count : Nat
  tested_count : Nat
  reported_count : Nat
deriving DecidableEq

/-- All counters start at zero. -/
def RunTotals.init : RunTotals := ⟨0, 0, 0, 0, 0, 0, 0, 0, 0⟩

/-- `if trailers.signed_off && !is_match { signed_off_count += 1; }`
(src/main.rs lines 123-125). -/
def tallySignedOff (trailers : TrailerState) (is_match : Bool)
    (t : RunTotals) : RunTotals :=
  if trailers.signed_off && !is_match then
    { t with signed_off_count := t.signed_off_count + 1 }
  else t

/-- `if trailers.reviewed { reviewed_count += 1; }` (src/main.rs 126-128). -/
def tallyReviewed (trailers : TrailerState) (t : RunTotals) : RunTotals :=
  if trailers.reviewed then { t with reviewed_count := t.reviewed_count + 1 }
  else t

/-- `if trailers.acked { acked_count += 1; }` (src/main.rs 129-131). -/
def tallyAcked (trailers : TrailerState) (t : RunTotals) : RunTotals :=
  if trailers.acked then { t with acked_count := t.acked_count + 1 }
  else t

/-- `if trailers.tested { tested_count += 1; }` (src/main.rs 132-134). -/
def tallyTested (trailers : TrailerState) (t : RunTotals) : RunTotals :=
  if trailers.tested then { t with tested_count := t.tested_count + 1 }
  else t

/-- `if trailers.reported { reported_count += 1; }` (src/main.rs 135-137). -/
def tallyReported (trailers : TrailerState) (t : RunTotals) : RunTotals :=
  if trailers.reported then { t with reported_count := t.reported_count + 1 }
  else t

/-- The body of the `for oid in revwalk` loop in `main` (src/main.rs lines
103-150), after the cutoff check: bump `total_scanned`, compute the author
match (`author.email().unwrap_or("")`), bump `commits_authored` on a
match, then analyze the message trailers (against `search_email`, the
lowered target) and update the annotation and category counters. -/
def processCommit (substringMode : Bool) (targetEmail searchEmail : Str)
    (t : RunTotals) (c : CommitRecord) : RunTotals :=
  let t := { t with total_scanned := t.total_scanned + 1 }
  let author_email := c.author_email.getD []
  let is_match := isMatch substringMode author_email targetEmail
  let t :=
    if is_match then { t with commits_authored := t.commits_authored + 1 }
    else t
  match c.message with
  | some msg =>
    match analyze_trailers msg searchEmail with
    | some trailers =>
      let t := tallySignedOff trailers is_match t
      let t := tallyReviewed trailers t
      let t := tallyAcked trailers t
      let t := tallyTested trailers t
      let t := tallyReported trailers t
      if !is_match then { t with commits_touched := t.commits_touched + 1 }
      else t
    | none =>
      if !is_match then { t with commits_ignored := t.commits_ignored + 1 }
      else t
  | none => { t with commits_ignored := t.commits_ignored + 1 }

/-- The walk over the commit stream (src/main.rs lines 92-151): for each
commit in traversal order, if a cutoff is configured and the commit time
is strictly earlier, break; otherwise process the commit and continue. -/
def runWalk (substringMode : Bool) (targetEmail searchEmail : Str)
    (cutoff : Option Int) : List CommitRecord → RunTotals → RunTotals
  | [], t => t
  | c :: cs, t =>
    match cutoff with
    | some since =>
      if c.time < since then t
      else runWalk substringMode targetEmail searchEmail (some since) cs
        (processCommit substringMode targetEmail searchEmail t c)
    | none => runWalk substringMode targetEmail searchEmail none cs
        (processCommit substringMode targetEmail searchEmail t c)

/-- One whole run of the tool on a given commit stream: `search_email` is
`args.email.to_lowercase()`, author matching uses the raw `args.email`. -/
def gitStats (substringMode : Bool) (email : Str) (cutoff : Option Int)
    (commits : List CommitRecord) : RunTotals :=
  runWalk substringMode email (Str.toLower email) cutoff commits RunTotals.init

/-- The trailer flags effectively attributed to one commit by the loop
body: the `analyze_trailers` result when the message is readable and any
flag latched, and all-false otherwise. -/
def commitTrailers (searchEmail : Str) (c : CommitRecord) : TrailerState :=
  match c.message with
  | some msg => (analyze_trailers msg searchEmail).getD TrailerState.default
  | none => TrailerState.default

/-- The trailer classification computed for one commit inside a run
configured with mode `substringMode` and target `email`: the loop passes
`search_email = email.to_lowercase()` to `analyze_trailers`; the
`--partial` flag configures author matching only. -/
def commitAnnotations (substringMode : Bool) (email : Str)
    (c : CommitRecord) : TrailerState :=
  commitTrailers (Str.toLower email) c

example :
    analyze_trailers "Fix\n\nSigned-off-by: t@e.com".toList "t@e.com".toList
      = some ⟨true, false, false, false, false⟩ := by decide

example :
    gitStats false "a@b.c".toList none [⟨0, some "a@b.c".toList, none⟩]
      = ⟨1, 1, 0, 1, 0, 0, 0, 0, 0⟩ := by decide

/-- A `some` result of `analyze_trailers` always has an active flag. -/
theorem analyze_trailers_any_active {msg target : Str} {st : TrailerState}
    (h : analyze_trailers msg target = some st) : st.any_active = true := by
  by_cases hact : (analyzeState msg target).any_active = true
  · have hst : analyzeState msg target = st := by
      simpa [analyze_trailers, hact] using h
    rw [← hst]; exact hact
  · simp [analyze_trailers, hact] at h

/-- `tallySignedOff` adds `(trailers.signed_off && !is_match).toNat`. -/
theorem tallySignedOff_spec (tr : TrailerState) (im : Bool) (t : RunTotals) :
    tallySignedOff tr im t =
      { t with signed_off_count :=
          t.signed_off_count + (tr.signed_off && !im).toNat } := by
  unfold tallySignedOff
  cases h : tr.signed_off && !im <;> simp [h]

/-- `tallyReviewed` adds `tr.reviewed.toNat`. -/
theorem tallyReviewed_spec (tr : TrailerState) (t : RunTotals) :
    tallyReviewed tr t =
      { t with reviewed_count := t.reviewed_count + tr.reviewed.toNat } := by
  unfold tallyReviewed
  cases h : tr.reviewed <;> simp [h]

/-- `tallyAcked` adds `tr.acked.toNat`. -/
theorem tallyAcked_spec (tr : TrailerState) (t : RunTotals) :
    tallyAcked tr t =
      { t with acked_count := t.acked_count + tr.acked.toNat } := by
  unfold tallyAcked
  cases h : tr.acked <;> simp [h]

/-- `tallyTested` adds `tr.tested.toNat`. -/
theorem tallyTested_spec (tr : TrailerState) (t : RunTotals) :
    tallyTested tr t =
      { t with tested_count := t.tested_count + tr.tested.toNat } := by
  unfold tallyTested
  cases h : tr.tested <;> simp [h]

/-- `tallyReported` adds `tr.reported.toNat`. -/
theorem tallyReported_spec (tr : TrailerState) (t : RunTotals) :
    tallyReported tr t =
      { t with reported_count := t.reported_count + tr.reported.toNat } := by
  unfold tallyReported
  cases h : tr.reported <;> simp [h]

set_option maxHeartbeats 1600000 in
/-- Closed-form characterization of one loop iteration: every counter of
`processCommit` equals its old value plus an explicit 0/1 delta. -/
theorem processCommit_spec (m : Bool) (te se : Str) (t : RunTotals)
    (c : CommitRecord) :
    processCommit m te se t c =
      { total_scanned := t.total_scanned + 1
        commits_authored := t.commits_authored +
          (isMatch m (c.author_email.getD []) te).toNat
        commits_touched := t.commits_touched +
          ((commitTrailers se c).any_active &&
            !(isMatch m (c.author_email.getD []) te)).toNat
        commits_ignored := t.commits_ignored +
          (c.message.isNone ||
            (c.message.isSome && !(commitTrailers se c).any_active &&
              !(isMatch m (c.author_email.getD []) te))).toNat
        signed_off_count := t.signed_off_count +
          ((commitTrailers se c).signed_off &&
            !(isMatch m (c.author_email.getD []) te)).toNat
        reviewed_count := t.reviewed_count + (commitTrailers se c).reviewed.toNat
        acked_count := t.acked_count + (commitTrailers se c).acked.toNat
        tested_count := t.tested_count + (commitTrailers se c).tested.toNat
        reported_count := t.reported_count +
          (commitTrailers se c).reported.toNat } := by
  rcases c with ⟨time, email, msg⟩
  rcases msg with _ | msg
  · simp only [processCommit, commitTrailers]
    cases hm : isMatch m (email.getD []) te <;> rfl
  · simp only [processCommit]
    split
    · rename_i trailers heq
      have hact := analyze_trailers_any_active heq
      have hct : commitTrailers se ⟨time, email, some msg⟩ = trailers := by
        simp [commitTrailers, heq]
      rw [hct]
      rcases trailers with ⟨so, rv, ak, ts, rp⟩
      simp only [TrailerState.any_active] at hact
      rw [tallySignedOff_spec, tallyReviewed_spec, tallyAcked_spec,
        tallyTested_spec, tallyReported_spec]
      cases hm : isMatch m (email.getD []) te <;>
        simp [TrailerState.any_active, hact]
    · rename_i heq
      have hct : commitTrailers se ⟨time, email, some msg⟩
          = TrailerState.default := by
        simp [commitTrailers, heq]
      rw [hct]
      cases hm : isMatch m (email.getD []) te <;>
        simp [TrailerState.default, TrailerState.any_active]

/-- `Str.containsSub` decides substring (contiguous infix) occurrence. -/
theorem containsSub_iff (s pat : Str) :
    Str.containsSub s pat = true ↔ pat <:+: s := by
  induction s with
  | nil =>
    simp [Str.containsSub, List.isEmpty_iff, List.infix_nil]
  | cons c rest ih =>
    simp [Str.containsSub, List.infix_cons_iff, ih, Bool.or_eq_true,
      List.isPrefixOf_iff_prefix]

/-- A boolean contributes at most one to any counter. -/
theorem toNat_le_one (b : Bool) : b.toNat ≤ 1 := by
  cases b <;> decide

/-- With a cutoff, the walk processes exactly the longest prefix of the
stream whose commit times are not strictly earlier than the cutoff. -/
theorem runWalk_cutoff_takeWhile (m : Bool) (te se : Str) (since : Int) :
    ∀ (cs : List CommitRecord) (t : RunTotals),
      runWalk m te se (some since) cs t
        = runWalk m te se none
            (cs.takeWhile fun c => !decide (c.time < since)) t := by
  intro cs
  induction cs with
  | nil => intro t; rfl
  | cons c cs ih =>
    intro t
    by_cases hc : c.time < since
    · simp [runWalk, List.takeWhile_cons, hc]
    · simp [runWalk, List.takeWhile_cons, hc, ih]

/-- Without a cutoff, every commit of the stream is scanned exactly once. -/
theorem runWalk_none_total (m : Bool) (te se : Str) :
    ∀ (cs : List CommitRecord) (t : RunTotals),
      (runWalk m te se none cs t).total_scanned
        = t.total_scanned + cs.length := by
  intro cs
  induction cs with
  | nil => intro t; simp [runWalk]
  | cons c cs ih =>
    intro t
    have h1 : runWalk m te se none (c :: cs) t
        = runWalk m te se none cs (processCommit m te se t c) := rfl
    rw [h1, ih, processCommit_spec]
    simp [List.length_cons]
    omega

/-- Each annotation counter is bounded by the number of scanned commits. -/
def annBound (t : RunTotals) : Prop :=
  t.signed_off_count ≤ t.total_scanned ∧
  t.reviewed_count ≤ t.total_scanned ∧
  t.acked_count ≤ t.total_scanned ∧
  t.tested_count ≤ t.total_scanned ∧
  t.reported_count ≤ t.total_scanned

/-- One loop iteration preserves the annotation-counter bound. -/
theorem processCommit_annBound (m : Bool) (te se : Str) (t : RunTotals)
    (c : CommitRecord) (h : annBound t) :
    annBound (processCommit m te se t c) := by
  unfold annBound at h ⊢
  simp only [processCommit_spec]
  have b1 := toNat_le_one ((commitTrailers se c).signed_off &&
    !(isMatch m (c.author_email.getD []) te))
  have b2 := toNat_le_one (commitTrailers se c).reviewed
  have b3 := toNat_le_one (commitTrailers se c).acked
  have b4 := toNat_le_one (commitTrailers se c).tested
  have b5 := toNat_le_one (commitTrailers se c).reported
  omega

/-- The whole walk preserves the annotation-counter bound. -/
theorem runWalk_annBound (m : Bool) (te se : Str) (cutoff : Option Int) :
    ∀ (cs : List CommitRecord) (t : RunTotals), annBound t →
      annBound (runWalk m te se cutoff cs t) := by
  intro cs
  induction cs with
  | nil => intro t h; exact h
  | cons c cs ih =>
    intro t h
    cases cutoff with
    | none => exact ih _ (processCommit_annBound m te se t c h)
    | some since =>
      by_cases hc : c.time < since
      · simpa [runWalk, hc] using h
      · simp only [runWalk, if_neg hc]
        exact ih _ (processCommit_annBound m te se t c h)

/-- `total_scanned`, `reviewed_count`, `acked_count`, `tested_count` and
`reported_count` depend only on the search email and the stream, not on
the matching mode or the raw target email. -/
theorem runWalk_trailer_counts (m1 m2 : Bool) (te1 te2 se : Str)
    (cutoff : Option Int) :
    ∀ (cs : List CommitRecord) (t1 t2 : RunTotals),
      t1.reviewed_count = t2.reviewed_count →
      t1.acked_count = t2.acked_count →
      t1.tested_count = t2.tested_count →
      t1.reported_count = t2.reported_count →
      (runWalk m1 te1 se cutoff cs t1).reviewed_count
          = (runWalk m2 te2 se cutoff cs t2).reviewed_count ∧
      (runWalk m1 te1 se cutoff cs t1).acked_count
          = (runWalk m2 te2 se cutoff cs t2).acked_count ∧
      (runWalk m1 te1 se cutoff cs t1).tested_count
          = (runWalk m2 te2 se cutoff cs t2).tested_count ∧
      (runWalk m1 te1 se cutoff cs t1).reported_count
          = (runWalk m2 te2 se cutoff cs t2).reported_count := by
  intro cs
  induction cs with
  | nil => intro t1 t2 h1 h2 h3 h4; exact ⟨h1, h2, h3, h4⟩
  | cons c cs ih =>
    intro t1 t2 h1 h2 h3 h4
    cases cutoff with
    | none =>
      refine ih _ _ ?_ ?_ ?_ ?_ <;> simp only [processCommit_spec] <;> omega
    | some since =>
      by_cases hc : c.time < since
      · simp only [runWalk, if_pos hc]
        exact ⟨h1, h2, h3, h4⟩
      · simp only [runWalk, if_neg hc]
        refine ih _ _ ?_ ?_ ?_ ?_ <;> simp only [processCommit_spec] <;>
          omega

/-- One processed commit changes every counter monotonically by at most
one (and `total_scanned` by exactly one). -/
def stepWithinOne (t u : RunTotals) : Prop :=
  u.total_scanned = t.total_scanned + 1 ∧
  t.commits_authored ≤ u.commits_authored ∧
  u.commits_authored ≤ t.commits_authored + 1 ∧
  t.commits_touched ≤ u.commits_touched ∧
  u.commits_touched ≤ t.commits_touched + 1 ∧
  t.commits_ignored ≤ u.commits_ignored ∧
  u.commits_ignored ≤ t.commits_ignored + 1 ∧
  t.signed_off_count ≤ u.signed_off_count ∧
  u.signed_off_count ≤ t.signed_off_count + 1 ∧
  t.reviewed_count ≤ u.reviewed_count ∧
  u.reviewed_count ≤ t.reviewed_count + 1 ∧
  t.acked_count ≤ u.acked_count ∧
  u.acked_count ≤ t.acked_count + 1 ∧
  t.tested_count ≤ u.tested_count ∧
  u.tested_count ≤ t.tested_count + 1 ∧
  t.reported_count ≤ u.reported_count ∧
  u.reported_count ≤ t.reported_count + 1

/-- Claim C1 (code bug): on a single-commit history whose author email
equals the target but whose message is unreadable, the run ends with
`total_scanned = 1` but `authored + touched + ignored = 2` — the `None`
message arm increments `commits_ignored` without checking the author
match, so the equality asserted by the code's own `debug_assert_eq!` does
not hold after this commit. -/
theorem invariant_fails_on_unreadable_authored_commit :
    (gitStats false "a@b.c".toList none
        [⟨0, some "a@b.c".toList, none⟩]).total_scanned = 1 ∧
    (gitStats false "a@b.c".toList none
          [⟨0, some "a@b.c".toList, none⟩]).commits_authored +
        (gitStats false "a@b.c".toList none
          [⟨0, some "a@b.c".toList, none⟩]).commits_touched +
        (gitStats false "a@b.c".toList none
          [⟨0, some "a@b.c".toList, none⟩]).commits_ignored = 2 := by
  decide

/-- Claim C2 (counterexample): `Jane@Example.com` and `jane@example.com`
are equal after lowering, yet Exact-mode matching returns `false` — the
code compares the raw strings (only `search_email`, used for trailers, is
lowered). -/
theorem case_insensitive_match_counterexample :
    isMatch false "Jane@Example.com".toList "jane@example.com".toList
        = false ∧
    Str.toLower "Jane@Example.com".toList
        = Str.toLower "jane@example.com".toList := by
  decide

/-- Claim C2 (amended): author-identity matching is case-SENSITIVE on both
sides: Exact mode returns true iff the candidate equals the target exactly
as given, Substring mode iff the candidate contains the target exactly as
given. -/
theorem identity_match_case_sensitive (cand target : Str) :
    (isMatch false cand target = true ↔ cand = target) ∧
    (isMatch true cand target = true ↔ target <:+: cand) := by
  constructor
  · simp [isMatch]
  · simp [isMatch, containsSub_iff]

/-- Claim C3 (counterexample): a commit authored by the target whose
message carries a `Signed-off-by:` trailer for the target has
`signed_off` in its classification result, yet the run's `signed_off`
counter stays 0: that counter is additionally gated on `!is_match`. -/
theorem signed_off_self_counterexample :
    ((analyze_trailers "Signed-off-by: a@b.c".toList "a@b.c".toList).map
        TrailerState.signed_off = some true) ∧
    (gitStats false "a@b.c".toList none
        [⟨0, some "a@b.c".toList, some "Signed-off-by: a@b.c".toList⟩]
      ).signed_off_count = 0 := by
  decide

/-- Claim C3 (amended): per commit, each of reviewed/acked/tested/reported
increments by exactly one when present (never by line count — two
`Reviewed-by:` lines add 1), regardless of the author match; `signed_off`
increments by exactly one only when present AND the author does not match
the target. -/
theorem annotation_counters_latch_per_commit (m : Bool) (te se : Str)
    (t : RunTotals) (c : CommitRecord) :
    ((processCommit m te se t c).reviewed_count
        = t.reviewed_count + (commitTrailers se c).reviewed.toNat) ∧
    ((processCommit m te se t c).acked_count
        = t.acked_count + (commitTrailers se c).acked.toNat) ∧
    ((processCommit m te se t c).tested_count
        = t.tested_count + (commitTrailers se c).tested.toNat) ∧
    ((processCommit m te se t c).reported_count
        = t.reported_count + (commitTrailers se c).reported.toNat) ∧
    ((processCommit m te se t c).signed_off_count
        = t.signed_off_count + ((commitTrailers se c).signed_off &&
            !(isMatch m (c.author_email.getD []) te)).toNat) ∧
    ((gitStats false "x@y.z".toList none
        [⟨0, some "other@o.o".toList,
          some "Reviewed-by: x@y.z\nReviewed-by: X@Y.Z <x>".toList⟩]
      ).reviewed_count = 1) := by
  refine ⟨?_, ?_, ?_, ?_, ?_, by decide⟩ <;> simp [processCommit_spec]

/-- Claim C4 (code bug): the three buckets are not mutually exclusive: a
target-authored commit with an unreadable message is counted in both
`commits_authored` and `commits_ignored` (1 + 1 buckets for 1 scanned
commit), contradicting the partition the code's `debug_assert_eq!`
assumes. -/
theorem bucket_exclusivity_fails_on_unreadable_authored_commit :
    (gitStats false "q@r.s".toList none
        [⟨0, some "q@r.s".toList, none⟩]).commits_authored = 1 ∧
    (gitStats false "q@r.s".toList none
        [⟨0, some "q@r.s".toList, none⟩]).commits_ignored = 1 ∧
    (gitStats false "q@r.s".toList none
        [⟨0, some "q@r.s".toList, none⟩]).total_scanned = 1 := by
  decide

/-- Claim C5: with a cutoff the walk processes exactly the longest prefix
of commits not strictly earlier than the cutoff (boundary commits with
time ≥ cutoff included); without a cutoff every commit adds exactly one to
`total_scanned`; each processed commit adds exactly one to
`total_scanned`; and on timestamps [2024-01-10, 2024-01-05, 2023-12-31]
with cutoff 2024-01-05, `total_scanned = 2`. -/
theorem cutoff_boundary_behavior :
    (∀ (m : Bool) (te se : Str) (since : Int) (cs : List CommitRecord)
        (t : RunTotals),
        runWalk m te se (some since) cs t
          = runWalk m te se none
              (cs.takeWhile fun c => !decide (c.time < since)) t) ∧
    (∀ (m : Bool) (te se : Str) (cs : List CommitRecord) (t : RunTotals),
        (runWalk m te se none cs t).total_scanned
          = t.total_scanned + cs.length) ∧
    (∀ (m : Bool) (te se : Str) (t : RunTotals) (c : CommitRecord),
        (processCommit m te se t c).total_scanned = t.total_scanned + 1) ∧
    (gitStats false "x@y.z".toList (some 1704412800)
        [⟨1704844800, some "a@b.c".toList, some "m1".toList⟩,
         ⟨1704412800, some "a@b.c".toList, some "m2".toList⟩,
         ⟨1703980800, some "a@b.c".toList, some "m3".toList⟩]
      ).total_scanned = 2 := by
  refine ⟨?_, ?_, ?_, by decide⟩
  · intro m te se since cs t
    exact runWalk_cutoff_takeWhile m te se since cs t
  · intro m te se cs t
    exact runWalk_none_total m te se cs t
  · intro m te se t c
    simp [processCommit_spec]

/-- Claim C6: a commit with no readable message contributes zero
annotations and is classified `ignored` whatever its author; the step
function is total, so the walk continues. -/
theorem unreadable_message_recoverable (m : Bool) (te se : Str)
    (t : RunTotals) (c : CommitRecord) (h : c.message = none) :
    (processCommit m te se t c).commits_ignored = t.commits_ignored + 1 ∧
    (processCommit m te se t c).commits_touched = t.commits_touched ∧
    (processCommit m te se t c).signed_off_count = t.signed_off_count ∧
    (processCommit m te se t c).reviewed_count = t.reviewed_count ∧
    (processCommit m te se t c).acked_count = t.acked_count ∧
    (processCommit m te se t c).tested_count = t.tested_count ∧
    (processCommit m te se t c).reported_count = t.reported_count := by
  have hct : commitTrailers se c = TrailerState.default := by
    simp [commitTrailers, h]
  simp [processCommit_spec, hct, h, TrailerState.default,
    TrailerState.any_active]

/-- Witness for C6: the no-message commit at a concrete input. -/
theorem unreadable_message_recoverable_witness :
    (processCommit false "t@e.co".toList "t@e.co".toList RunTotals.init
        ⟨0, some "a@b.c".toList, none⟩).commits_ignored
      = RunTotals.init.commits_ignored + 1 ∧
    (processCommit false "t@e.co".toList "t@e.co".toList RunTotals.init
        ⟨0, some "a@b.c".toList, none⟩).commits_touched
      = RunTotals.init.commits_touched ∧
    (processCommit false "t@e.co".toList "t@e.co".toList RunTotals.init
        ⟨0, some "a@b.c".toList, none⟩).signed_off_count
      = RunTotals.init.signed_off_count ∧
    (processCommit false "t@e.co".toList "t@e.co".toList RunTotals.init
        ⟨0, some "a@b.c".toList, none⟩).reviewed_count
      = RunTotals.init.reviewed_count ∧
    (processCommit false "t@e.co".toList "t@e.co".toList RunTotals.init
        ⟨0, some "a@b.c".toList, none⟩).acked_count
      = RunTotals.init.acked_count ∧
    (processCommit false "t@e.co".toList "t@e.co".toList RunTotals.init
        ⟨0, some "a@b.c".toList, none⟩).tested_count
      = RunTotals.init.tested_count ∧
    (processCommit false "t@e.co".toList "t@e.co".toList RunTotals.init
        ⟨0, some "a@b.c".toList, none⟩).reported_count
      = RunTotals.init.reported_count :=
  unreadable_message_recoverable false "t@e.co".toList "t@e.co".toList
    RunTotals.init ⟨0, some "a@b.c".toList, none⟩ rfl

/-- Claim C7 (counterexample): the code substitutes `""` for a missing
author email, and an empty target matches `""` in both modes — so a
commit with no author email IS counted as authored when the target is the
empty string, refuting "never counted as authored for every target". -/
theorem missing_email_empty_target_counterexample :
    (gitStats false [] none
        [⟨0, none, some "hello".toList⟩]).commits_authored = 1 ∧
    (gitStats true [] none
        [⟨0, none, some "hello".toList⟩]).commits_authored = 1 := by
  decide

/-- Claim C7 (amended): a commit with no author email never matches any
NON-EMPTY target in either mode, is never counted as authored, and is
still counted in `total_scanned`. -/
theorem missing_email_never_matches_nonempty_target (m : Bool)
    (target se : Str) (t : RunTotals) (c : CommitRecord)
    (h : target ≠ []) (hc : c.author_email = none) :
    isMatch m (c.author_email.getD []) target = false ∧
    (processCommit m target se t c).commits_authored
      = t.commits_authored ∧
    (processCommit m target se t c).total_scanned
      = t.total_scanned + 1 := by
  have hm : isMatch m [] target = false := by
    cases m with
    | false =>
      simp only [isMatch, if_neg (Bool.false_ne_true), Bool.false_eq_true,
        ite_false, beq_eq_false_iff_ne]
      exact Ne.symm h
    | true =>
      simp only [isMatch, ite_true]
      rcases target with _ | ⟨a, as⟩
      · exact absurd rfl h
      · rfl
  refine ⟨?_, ?_, ?_⟩
  · rw [hc]; simpa using hm
  · simp [processCommit_spec, hc, hm]
  · simp [processCommit_spec]

/-- Witness for C7 (amended) at a concrete input. -/
theorem missing_email_never_matches_nonempty_target_witness :
    isMatch false
        ((⟨0, none, some "hi".toList⟩ : CommitRecord).author_email.getD [])
        "a@b.c".toList = false ∧
    (processCommit false "a@b.c".toList "a@b.c".toList RunTotals.init
        ⟨0, none, some "hi".toList⟩).commits_authored
      = RunTotals.init.commits_authored ∧
    (processCommit false "a@b.c".toList "a@b.c".toList RunTotals.init
        ⟨0, none, some "hi".toList⟩).total_scanned
      = RunTotals.init.total_scanned + 1 :=
  missing_email_never_matches_nonempty_target false "a@b.c".toList
    "a@b.c".toList RunTotals.init ⟨0, none, some "hi".toList⟩
    (by decide) rfl

/-- Claim C8: the trailer classification of a commit is computed from the
lowered target only and is identical whether the run uses Exact or
Substring author matching; consequently the reviewed/acked/tested/reported
counters agree between the two modes on every run, and trailer relevance
is a case-insensitive substring test (a mixed-case `Acked-by:` line
latches against a mixed-case target even in Exact mode). -/
theorem trailer_relevance_mode_independent :
    (∀ (email : Str) (c : CommitRecord),
        commitAnnotations true email c = commitAnnotations false email c) ∧
    (∀ (email : Str) (cutoff : Option Int) (cs : List CommitRecord),
        (gitStats true email cutoff cs).reviewed_count
            = (gitStats false email cutoff cs).reviewed_count ∧
        (gitStats true email cutoff cs).acked_count
            = (gitStats false email cutoff cs).acked_count ∧
        (gitStats true email cutoff cs).tested_count
            = (gitStats false email cutoff cs).tested_count ∧
        (gitStats true email cutoff cs).reported_count
            = (gitStats false email cutoff cs).reported_count) ∧
    (commitAnnotations false "JANE@example.com".toList
        ⟨0, some "someone@else.org".toList,
          some "Acked-by: Jane Doe <jane@EXAMPLE.com>".toList⟩).acked
      = true := by
  refine ⟨fun email c => rfl, ?_, by decide⟩
  intro email cutoff cs
  exact runWalk_trailer_counts true false email email (Str.toLower email)
    cutoff cs RunTotals.init RunTotals.init rfl rfl rfl rfl

/-- Claim C9: the three-commit end-to-end scenario — (1) authored by the
target with no trailers, (2) authored by someone else with a
`Signed-off-by:` for the target, (3) authored by someone else with no
recognized trailer — yields totals (scanned 3, authored 1, touched 1,
ignored 1, signed_off 1, all other annotation counters 0). -/
theorem end_to_end_three_commits :
    gitStats false "target@example.com".toList none
      [⟨300, some "target@example.com".toList, some "Add feature".toList⟩,
       ⟨200, some "other@example.com".toList,
         some "Fix bug\n\nSigned-off-by: target@example.com".toList⟩,
       ⟨100, some "another@example.com".toList, some "Refactor".toList⟩]
      = ⟨3, 1, 1, 1, 1, 0, 0, 0, 0⟩ := by
  decide

/-- Claim C10: every counter changes monotonically by at most one per
processed commit (`total_scanned` by exactly one), and each of the five
annotation counters is bounded by `total_scanned` at every point of every
walk (every intermediate state is the final state of the walk on the
corresponding prefix of the stream, over which this quantifies). -/
theorem counters_bounded_and_monotone :
    (∀ (m : Bool) (te se : Str) (t : RunTotals) (c : CommitRecord),
        stepWithinOne t (processCommit m te se t c)) ∧
    (∀ (m : Bool) (e : Str) (cutoff : Option Int)
        (cs : List CommitRecord),
        annBound (gitStats m e cutoff cs)) := by
  constructor
  · intro m te se t c
    unfold stepWithinOne
    rw [processCommit_spec]
    dsimp only
    have b0 := toNat_le_one (isMatch m (c.author_email.getD []) te)
    have b1 := toNat_le_one ((commitTrailers se c).any_active &&
      !(isMatch m (c.author_email.getD []) te))
    have b2 := toNat_le_one (c.message.isNone ||
      (c.message.isSome && !(commitTrailers se c).any_active &&
        !(isMatch m (c.author_email.getD []) te)))
    have b3 := toNat_le_one ((commitTrailers se c).signed_off &&
      !(isMatch m (c.author_email.getD []) te))
    have b4 := toNat_le_one (commitTrailers se c).reviewed
    have b5 := toNat_le_one (commitTrailers se c).acked
    have b6 := toNat_le_one (commitTrailers se c).tested
    have b7 := toNat_le_one (commitTrailers se c).reported
    omega
  · intro m e cutoff cs
    exact runWalk_annBound m e (Str.toLower e) cutoff cs RunTotals.init
      (by unfold annBound; decide)

end GitStats
